import Mathlib

/-!
Shallow embedding of the request-logging pipeline policy of
`2016-05-31/azblob/policy_request_log.go` (azure-storage-blob-go), together
with the Go standard-library query helpers (`net/url.ParseQuery`,
`url.Values.Encode`, `QueryEscape`, `QueryUnescape`) that
`redactSigQueryParam` relies on.  Times and durations are modelled as `Int`
nanoseconds (Go `time.Duration`); the `try` counter is a Go `int32`, modelled
as an `Int` wrapped into `[-2^31, 2^31)` after each increment.
-/

namespace AzblobRequestLog

/-- The pipeline log severities the request-log policy actually uses
(`pipeline.LogInfo`, `pipeline.LogWarning`, `pipeline.LogError`); the
policy never emits any other severity, so the rest of the pipeline enum is
irrelevant to it. -/
inductive LogSeverity where
  | info
  | warning
  | error
deriving DecidableEq, Repr

/-- Which of the four `logMsg` closures of `requestLogPolicy.Do` is currently
selected: the initial success message, the slow-operation message, the
operation-error (bad HTTP status) message, or the network-error message. -/
inductive MsgKind where
  | success
  | slow
  | opError
  | netError
deriving DecidableEq, Repr

/-- Whether the selected `logMsg` closure contains the `forceLog = true`
assignment (all of them except the plain success message do). -/
def msgSetsForce : MsgKind → Bool
  | .success => false
  | .slow => true
  | .opError => true
  | .netError => true

/-- Whether the selected `logMsg` closure calls `stack()` (only the two
error-message closures do). -/
def msgCapturesStack : MsgKind → Bool
  | .success => false
  | .slow => false
  | .opError => true
  | .netError => true

/-- Go `time.Second` in nanoseconds (the unit of `time.Duration`). -/
def timeSecond : Int := 1000000000

/-- Two's-complement wraparound of Go `int32` arithmetic. -/
def int32wrap (n : Int) : Int := (n + 2147483648) % 4294967296 - 2147483648

/-- The mutable per-instance state of `requestLogPolicy`: the `try` counter
(an `int32`, first try is 1) and the `operationStart` timestamp. -/
structure PolicyState where
  tryCount : Int
  operationStart : Int
deriving DecidableEq, Repr

/-- The zero value a freshly constructed `requestLogPolicy` starts with. -/
def freshPolicyState : PolicyState := ⟨0, 0⟩

/-- What the next pipeline stage (`p.node.Do`) hands back for one attempt:
an opaque handle for the returned `pipeline.Response`, its HTTP status code
(used only when `err` is `none`), an opaque error (`none` models Go `nil`),
and the measured try duration. -/
structure TryOutcome where
  response : Nat
  statusCode : Int
  err : Option Nat
  tryDuration : Int
deriving DecidableEq, Repr

/-- Everything observable about one `requestLogPolicy.Do` invocation. -/
structure DoResult where
  /-- Policy state after the call (`try`, `operationStart`). -/
  state : PolicyState
  /-- The `response` value returned to the caller. -/
  response : Nat
  /-- The `err` value returned to the caller. -/
  err : Option Nat
  /-- Raw query of the live request handed to `p.node.Do`. -/
  requestToNext : String
  /-- The final `severity` local variable. -/
  severity : LogSeverity
  /-- The final `logMsg` closure variant. -/
  msgKind : MsgKind
  /-- Whether the pre-call "OUTGOING REQUEST" Info record was emitted. -/
  outgoingInfoLogged : Bool
  /-- Whether the post-call diagnostic message was rendered (`logMsg` ran). -/
  msgRendered : Bool
  /-- Whether `stack()` was executed. -/
  stackCaptured : Bool
  /-- Whether `pipeline.ForceLog` was called with the record. -/
  forceLogged : Bool
  /-- Whether `p.node.Log` was called with the record. -/
  nodeLogged : Bool
deriving DecidableEq, Repr

/-- The Go status-code allow-list test of `requestLogPolicy.Do`:
`(sc >= 400 && sc <= 499 && sc != 404 && sc != 409 && sc != 412 && sc != 416)
|| (sc >= 500 && sc <= 599)`. -/
def isErrorStatus (sc : Int) : Prop :=
  (400 ≤ sc ∧ sc ≤ 499 ∧ sc ≠ 404 ∧ sc ≠ 409 ∧ sc ≠ 412 ∧ sc ≠ 416) ∨
  (500 ≤ sc ∧ sc ≤ 599)

instance (sc : Int) : Decidable (isErrorStatus sc) := by
  unfold isErrorStatus; infer_instance

/-- `requestLogPolicy.Do`, line by line.  `threshold` is
`p.o.LogWarningIfTryOverThreshold` (already processed by the factory),
`shouldLog` is the node's ambient filter predicate, `s` the policy state on
entry, `now` the wall-clock time at entry, `rawQuery` the live request's raw
query string, and `o` what `p.node.Do` produces.  Note the Go source only
assigns `forceLog = true` inside the `logMsg` closures, which run strictly
after the `forceLog || shouldLog` guard is evaluated, so the guard always
sees `forceLog == false`. -/
def requestLogPolicyDo (threshold : Int) (shouldLog : LogSeverity → Bool)
    (s : PolicyState) (now : Int) (rawQuery : String) (o : TryOutcome) :
    DoResult :=
  -- p.try++; if p.try == 1 { p.operationStart = time.Now() }
  let try1 := int32wrap (s.tryCount + 1)
  let opStart := if try1 = 1 then now else s.operationStart
  -- if p.node.ShouldLog(pipeline.LogInfo) { ... log the outgoing request ... }
  let outgoing := shouldLog .info
  -- response, err = p.node.Do(ctx, request); severity starts at LogInfo
  let sev0 := LogSeverity.info
  let msg0 := MsgKind.success
  -- if p.o.LogWarningIfTryOverThreshold > 0 && tryDuration > threshold
  let slowHit : Bool := decide (0 < threshold ∧ threshold < o.tryDuration)
  let sev1 := if slowHit then LogSeverity.warning else sev0
  let msg1 := if slowHit then MsgKind.slow else msg0
  -- if err == nil { promote 4xx/5xx to Error } else { network error }
  let sev2 := match o.err with
    | some _ => LogSeverity.error
    | none => if isErrorStatus o.statusCode then LogSeverity.error else sev1
  let msg2 := match o.err with
    | some _ => MsgKind.netError
    | none => if isErrorStatus o.statusCode then MsgKind.opError else msg1
  -- if shouldLog := p.node.ShouldLog(severity); forceLog || shouldLog { ... }
  -- forceLog is still false here: the closures that set it have not run yet.
  let forceLogAtGuard := false
  let shouldLogSev := shouldLog sev2
  let emit := forceLogAtGuard || shouldLogSev
  -- inside the guard, logMsg(b) runs: it may call stack() and set forceLog
  let stackCap := emit && msgCapturesStack msg2
  let forceLogAfterRender := if emit then msgSetsForce msg2 else forceLogAtGuard
  ⟨⟨try1, opStart⟩, o.response, o.err, rawQuery, sev2, msg2, outgoing,
    emit, stackCap, emit && forceLogAfterRender, emit && shouldLogSev⟩

/-- `NewRequestLogPolicyFactory`: a configured threshold of 0 is replaced by
the default `3 * time.Second`; any other value is kept as-is. -/
def newRequestLogPolicyFactoryThreshold (t : Int) : Int :=
  if t = 0 then 3 * timeSecond else t

/-- A benign attempt outcome (HTTP 200, no error, instant), used to drive the
pure state-update part of `Do` when only the counter/timestamp matter. -/
def defaultOutcome : TryOutcome := ⟨0, 200, none, 0⟩

/-- The policy state after `n` successive `Do` invocations on a freshly
constructed instance, invocation number `k` happening at wall-clock time
`f k`.  (The state update does not depend on the attempt outcomes.) -/
def runTries (f : Nat → Int) : Nat → PolicyState
  | 0 => freshPolicyState
  | n + 1 =>
    (requestLogPolicyDo 0 (fun _ => false) (runTries f n) (f (n + 1)) ""
      defaultOutcome).state

/-- Classification exactly as the specification words it: five rules,
first match wins, producing the `(severity, force)` pair from
`(transport-error-occurred, status-code, try-duration, threshold)`. -/
def classifySpec (transportErr : Bool) (sc d threshold : Int) :
    LogSeverity × Bool :=
  if transportErr then (.error, true)
  else if 500 ≤ sc ∧ sc ≤ 599 then (.error, true)
  else if 400 ≤ sc ∧ sc ≤ 499 ∧ sc ≠ 404 ∧ sc ≠ 409 ∧ sc ≠ 412 ∧ sc ≠ 416 then
    (.error, true)
  else if 0 < threshold ∧ threshold < d then (.warning, true)
  else (.info, false)

/-- Go `strings.ToLower` (ASCII fragment, which is all the policy relies on:
the needles `?sig=`, `&sig=` and `sig` are pure ASCII). -/
def strToLower (s : String) : String := String.mk (s.data.map Char.toLower)

/-- Whether `pat` occurs at the start of `cs`. -/
def listStartsWith : List Char → List Char → Bool
  | [], _ => true
  | _ :: _, [] => false
  | p :: ps, c :: cs => p = c && listStartsWith ps cs

/-- Go `strings.Contains`: whether `pat` occurs anywhere in `cs`. -/
def containsSub (pat : List Char) : List Char → Bool
  | [] => listStartsWith pat []
  | c :: cs => listStartsWith pat (c :: cs) || containsSub pat cs

/-- Go `net/url.ishex`. -/
def ishex (c : Char) : Bool :=
  ('0' ≤ c && c ≤ '9') || ('a' ≤ c && c ≤ 'f') || ('A' ≤ c && c ≤ 'F')

/-- Go `net/url.unhex`. -/
def unhex (c : Char) : Nat :=
  if '0' ≤ c && c ≤ '9' then c.toNat - '0'.toNat
  else if 'a' ≤ c && c ≤ 'f' then c.toNat - 'a'.toNat + 10
  else c.toNat - 'A'.toNat + 10

/-- Go `net/url.QueryUnescape` (i.e. `unescape` in `encodeQueryComponent`
mode): `%XY` with two hex digits decodes to the byte `XY`, a `%` not
followed by two hex digits is an `EscapeError` (here `none`), and `+`
decodes to a space. -/
def queryUnescape : List Char → Option (List Char)
  | [] => some []
  | '%' :: rest =>
    match rest with
    | a :: b :: rest' =>
      if ishex a && ishex b then
        (queryUnescape rest').map (fun t => Char.ofNat (16 * unhex a + unhex b) :: t)
      else none
    | _ => none
  | '+' :: rest => (queryUnescape rest).map (fun t => ' ' :: t)
  | c :: rest => (queryUnescape rest).map (fun t => c :: t)

/-- The segment loop of Go `net/url.parseQuery`: the query is consumed up to
the first `&` or `;` separator each iteration, which is exactly a split on
those two separator characters (empty segments are skipped later). -/
def splitSegs (cs : List Char) : List (List Char) :=
  cs.foldr
    (fun c acc =>
      if c = '&' || c = ';' then [] :: acc
      else
        match acc with
        | [] => [[c]]
        | a :: as => (c :: a) :: as)
    [[]]

/-- Go `net/url.parseQuery`'s split of one segment at its first `=`:
`key[:i], key[i+1:]`, with an empty value when there is no `=`. -/
def splitKV : List Char → List Char × List Char
  | [] => ([], [])
  | '=' :: rest => ([], rest)
  | c :: rest =>
    let p := splitKV rest
    (c :: p.1, p.2)

/-- Go `m[key] = append(m[key], value)` on `url.Values`, modelled as an
association list from key to the value list in append order. -/
def valuesAdd (m : List (List Char × List (List Char))) (k v : List Char) :
    List (List Char × List (List Char)) :=
  match m with
  | [] => [(k, [v])]
  | kv :: rest =>
    if kv.1 == k then (kv.1, kv.2 ++ [v]) :: rest else kv :: valuesAdd rest k v

/-- Go `net/url.ParseQuery`: split on `&`/`;`, skip empty segments, split
each segment at its first `=`, query-unescape key then value, and on an
unescape error skip the pair but remember that an error occurred.  Returns
the accumulated `url.Values` and whether any `EscapeError` was recorded
(the returned `err` being non-nil). -/
def parseQuery (cs : List Char) : List (List Char × List (List Char)) × Bool :=
  (splitSegs cs).foldl
    (fun acc seg =>
      if seg.isEmpty then acc
      else
        let kv := splitKV seg
        match queryUnescape kv.1, queryUnescape kv.2 with
        | some k, some v => (valuesAdd acc.1 k v, acc.2)
        | _, _ => (acc.1, true))
    ([], false)

/-- Go string `<` (byte-wise lexicographic), as used by `sort.Strings`. -/
def strLt : List Char → List Char → Bool
  | [], [] => false
  | [], _ :: _ => true
  | _ :: _, [] => false
  | a :: as, b :: bs => if a = b then strLt as bs else Nat.blt a.toNat b.toNat

/-- Insert into a `strLt`-sorted list of keys. -/
def insertSorted (x : List Char) : List (List Char) → List (List Char)
  | [] => [x]
  | y :: ys => if strLt x y then x :: y :: ys else y :: insertSorted x ys

/-- Go `sort.Strings` over the (distinct) keys of a `url.Values`. -/
def sortStrings : List (List Char) → List (List Char)
  | [] => []
  | x :: xs => insertSorted x (sortStrings xs)

/-- Go `net/url.shouldEscape` in `encodeQueryComponent` mode, negated:
alphanumerics and `-`, `_`, `.`, `~` stay literal, everything else is
percent-escaped (space specially becomes `+`). -/
def isUnreservedQuery (c : Char) : Bool :=
  ('A' ≤ c && c ≤ 'Z') || ('a' ≤ c && c ≤ 'z') || ('0' ≤ c && c ≤ '9') ||
  c = '-' || c = '_' || c = '.' || c = '~'

/-- Upper-case hex digit, as written by Go's percent-escaper. -/
def hexUpperDigit (n : Nat) : Char :=
  if n < 10 then Char.ofNat ('0'.toNat + n) else Char.ofNat ('A'.toNat + n - 10)

/-- Go `net/url.QueryEscape`. -/
def queryEscape (cs : List Char) : List Char :=
  cs.flatMap
    (fun c =>
      if c = ' ' then ['+']
      else if isUnreservedQuery c then [c]
      else ['%', hexUpperDigit (c.toNat / 16), hexUpperDigit (c.toNat % 16)])

/-- Value list stored under key `k` (`v[k]` in Go). -/
def lookupVals (m : List (List Char × List (List Char))) (k : List Char) :
    List (List Char) :=
  match m.find? (fun kv => kv.1 == k) with
  | some kv => kv.2
  | none => []

/-- Go `url.Values.Encode`: sort the keys, then for each key emit
`QueryEscape(k)=QueryEscape(v)` for each of its values in order, joined by
`&` (each piece contains at least the `=`, so the byte-wise `buf.Len() > 0`
check is exactly `&`-intercalation). -/
def valuesEncode (m : List (List Char × List (List Char))) : List Char :=
  let keys := sortStrings (m.map (fun kv => kv.1))
  List.intercalate ['&']
    (keys.flatMap
      (fun k => (lookupVals m k).map (fun v => queryEscape k ++ '=' :: queryEscape v)))

/-- Go `strings.EqualFold` (ASCII fragment: the only key compared against is
`sig`). -/
def strEqualFold (a b : List Char) : Bool :=
  a.map Char.toLower == b.map Char.toLower

/-- `redactSigQueryParam` from `policy_request_log.go`: lower-case the raw
query, look for the substrings `?sig=` and then `&sig=`; if neither occurs
return `(false, lowered-query)`; otherwise parse the lowered query
(discarding the parse error), overwrite the value list of every key that
equal-folds to `sig` with the single literal `REDACTED`, and return
`(true, Values.Encode result)`. -/
def redactSigQueryParam (rawQuery : String) : Bool × String :=
  let lowered := strToLower rawQuery
  let sigFound :=
    containsSub "?sig=".data lowered.data || containsSub "&sig=".data lowered.data
  if !sigFound then (sigFound, lowered)
  else
    let values := (parseQuery lowered.data).1
    let redacted := values.map
      (fun kv => if strEqualFold kv.1 "sig".data then (kv.1, ["REDACTED".data]) else kv)
    (sigFound, String.mk (valuesEncode redacted))

/-- The slice of a `pipeline.Request` the redaction logic touches: its URL's
raw query string. -/
structure GoRequest where
  rawQuery : String
deriving DecidableEq, Repr

/-- `prepareRequestForLogging`: when redaction finds a signature it copies
the request (`request.Copy()`) and assigns the redacted query to the copy's
URL; otherwise the original request object is handed to the log writer
untouched.  Result: (live request after the call, request handed to the log
writer). -/
def prepareRequestForLogging (request : GoRequest) : GoRequest × GoRequest :=
  let r := redactSigQueryParam request.rawQuery
  if r.1 then (request, ⟨r.2⟩) else (request, request)

/-! ## Helper lemmas -/

theorem runTries_tryCount (f : Nat → Int) (n : Nat) :
    (runTries f n).tryCount = int32wrap n := by
  induction n with
  | zero => simp [runTries, freshPolicyState, int32wrap]
  | succ m ih =>
    simp only [runTries, requestLogPolicyDo, ih, int32wrap]
    push_cast
    omega

theorem runTries_opStart (f : Nat → Int) (n : Nat) (h1 : 1 ≤ n)
    (h2 : n < 2147483648) : (runTries f n).operationStart = f 1 := by
  induction n with
  | zero => omega
  | succ m ih =>
    by_cases hm : m = 0
    · subst hm
      simp [runTries, requestLogPolicyDo, freshPolicyState, int32wrap]
    · have hm1 : 1 ≤ m := by omega
      have htry := runTries_tryCount f m
      have hne : int32wrap ((runTries f m).tryCount + 1) ≠ 1 := by
        rw [htry]
        simp only [int32wrap]
        omega
      simp only [runTries, requestLogPolicyDo]
      simp only [hne, if_false]
      exact ih hm1 (by omega)

/-! ## Claim theorems -/

/-- Claim C1 (code bug): with a node filter that rejects every severity, an
attempt that classifies as Error (here: a transport error) produces no
forced emission at all — `forceLog` is still `false` when the
`forceLog || shouldLog` guard runs, because the only assignments to it live
inside the `logMsg` closures, which execute after the guard.  The record is
therefore neither rendered nor handed to `pipeline.ForceLog`, contradicting
the forced-visibility guarantee. -/
theorem forced_channel_suppressed_when_filter_rejects :
    (requestLogPolicyDo (3 * timeSecond) (fun _ => false) freshPolicyState 0 ""
        ⟨0, 0, some 0, 0⟩).severity = .error ∧
    (requestLogPolicyDo (3 * timeSecond) (fun _ => false) freshPolicyState 0 ""
        ⟨0, 0, some 0, 0⟩).forceLogged = false ∧
    (requestLogPolicyDo (3 * timeSecond) (fun _ => false) freshPolicyState 0 ""
        ⟨0, 0, some 0, 0⟩).msgRendered = false := by
  decide

/-- Claim C2: the `(severity, force)` pair the policy attaches to an attempt
is exactly the specification's five-rule, first-match-wins classification of
`(transport-error-occurred, status-code, try-duration, threshold)`; in
particular it is a pure function of that tuple (the node filter, policy
state, clock and query string do not appear on the right-hand side), and
error conditions take precedence over slowness. -/
theorem classification_matches_spec_order (th : Int) (sl : LogSeverity → Bool)
    (s : PolicyState) (now : Int) (q : String) (o : TryOutcome) :
    ((requestLogPolicyDo th sl s now q o).severity,
      msgSetsForce (requestLogPolicyDo th sl s now q o).msgKind)
      = classifySpec o.err.isSome o.statusCode o.tryDuration th := by
  obtain ⟨resp, sc, err, d⟩ := o
  cases err <;>
    simp only [requestLogPolicyDo, classifySpec, Option.isSome, isErrorStatus,
      decide_eq_true_eq] <;>
    split_ifs <;>
    simp_all [msgSetsForce]

/-- Claim C3 (code bug): a lone `sig` parameter in first position is not
detected — the substring search looks for `?sig=`/`&sig=`, but a raw query
string never starts with `?`, so `found` comes back `false` although the
query contains a `sig` parameter. -/
theorem sig_first_param_not_detected :
    redactSigQueryParam "sig=secret" = (false, "sig=secret") := by
  decide

/-- Claim C4 (code bug): on the no-`sig` path the function returns the
lower-cased query, not the input itself — its own comment says "return same
rawQuery passed in", but `rawQuery` was reassigned to `strings.ToLower(...)`
beforehand. -/
theorem no_sig_path_returns_lowercased_input :
    redactSigQueryParam "A=B" = (false, "a=b") ∧ "a=b" ≠ "A=B" := by
  decide

/-- Claim C5 (code bug): a query whose only `sig` parameter is in first
position is passed through with `found=false` and the secret value intact in
the output, so the output does contain the original secret and the `sig`
value is not the redaction marker. -/
theorem sig_secret_leaks_when_first_param :
    redactSigQueryParam "sig=secret123&x=1" = (false, "sig=secret123&x=1") ∧
    containsSub "secret123".data
      (redactSigQueryParam "sig=secret123&x=1").2.data = true := by
  decide

/-- Claim C6 counterexample: the `try` counter is a Go `int32`, so on
invocation number 2^31 it wraps from 2147483647 to -2147483648 instead of
increasing by one — the counter does not strictly increase by one per call
over an unbounded instance lifetime. -/
theorem try_counter_wraps_to_negative :
    (runTries (fun k => (k : Int)) 2147483647).tryCount = 2147483647 ∧
    (runTries (fun k => (k : Int)) 2147483648).tryCount = -2147483648 := by
  refine ⟨?_, ?_⟩ <;>
    · rw [runTries_tryCount]
      simp only [int32wrap]
      norm_num

/-- Claim C6 as amended: as long as the instance has seen fewer than 2^31
invocations (no `int32` overflow), the first invocation sets the try counter
to 1 and fixes the operation-start timestamp, and every subsequent
invocation increments the counter by exactly one and leaves the timestamp
unchanged. -/
theorem try_and_opstart_invariant_before_overflow (f : Nat → Int) (n : Nat)
    (h1 : 1 ≤ n) (h2 : n + 1 < 2147483648) :
    (runTries f 1).tryCount = 1 ∧
    (runTries f 1).operationStart = f 1 ∧
    (runTries f n).tryCount = (n : Int) ∧
    (runTries f n).operationStart = f 1 ∧
    (runTries f (n + 1)).tryCount = (runTries f n).tryCount + 1 ∧
    (runTries f (n + 1)).operationStart = (runTries f n).operationStart := by
  have wrapId : ∀ m : Nat, m < 2147483648 → int32wrap m = m := by
    intro m hm
    simp only [int32wrap]
    omega
  refine ⟨?_, ?_, ?_, ?_, ?_, ?_⟩
  · rw [runTries_tryCount]; exact wrapId 1 (by norm_num)
  · exact runTries_opStart f 1 le_rfl (by norm_num)
  · rw [runTries_tryCount]; exact wrapId n (by omega)
  · exact runTries_opStart f n h1 (by omega)
  · rw [runTries_tryCount, runTries_tryCount, wrapId n (by omega),
      wrapId (n + 1) h2]
    push_cast
    ring
  · rw [runTries_opStart f (n + 1) (by omega) h2,
      runTries_opStart f n h1 (by omega)]

/-- Witness for the amended claim C6 at `n = 2` with call `k` happening at
time `k + 5`. -/
theorem try_and_opstart_invariant_witness :
    (runTries (fun k => (k : Int) + 5) 2).tryCount = 2 ∧
    (runTries (fun k => (k : Int) + 5) 2).operationStart = 6 ∧
    (runTries (fun k => (k : Int) + 5) 3).tryCount =
      (runTries (fun k => (k : Int) + 5) 2).tryCount + 1 := by
  have h := try_and_opstart_invariant_before_overflow
    (fun k => (k : Int) + 5) 2 (by norm_num) (by norm_num)
  exact ⟨h.2.2.1, by rw [h.2.2.2.1]; norm_num, h.2.2.2.2.1⟩

/-- Claim C7: threshold configuration — a configured 0 selects the default
of 3 seconds; every non-zero value is used as-is; a negative threshold
never lets any attempt classify as Warning; and with a positive threshold a
try duration exactly equal to the threshold does not escalate a clean
attempt (strict greater-than). -/
theorem threshold_configuration_behavior :
    newRequestLogPolicyFactoryThreshold 0 = 3 * timeSecond ∧
    (∀ t : Int, t ≠ 0 → newRequestLogPolicyFactoryThreshold t = t) ∧
    (∀ t : Int, t < 0 → ∀ (sl : LogSeverity → Bool) (s : PolicyState)
      (now : Int) (q : String) (o : TryOutcome),
      (requestLogPolicyDo t sl s now q o).severity ≠ .warning) ∧
    (∀ t : Int, 0 < t → ∀ (sl : LogSeverity → Bool) (s : PolicyState)
      (now : Int) (q : String) (r : Nat),
      (requestLogPolicyDo t sl s now q ⟨r, 200, none, t⟩).severity = .info) := by
  refine ⟨rfl, fun t ht => by simp [newRequestLogPolicyFactoryThreshold, ht],
    ?_, ?_⟩
  · intro t ht sl s now q o
    obtain ⟨resp, sc, err, d⟩ := o
    have hslow : decide (0 < t ∧ t < d) = false := by
      simp only [decide_eq_false_iff_not, not_and]
      omega
    cases err
    · simp only [requestLogPolicyDo, hslow]
      split_ifs <;> simp_all
    · simp [requestLogPolicyDo, hslow]
  · intro t ht sl s now q r
    have hslow : decide (0 < t ∧ t < t) = false := by
      simp only [decide_eq_false_iff_not, not_and]
      omega
    have hsc : ¬ isErrorStatus 200 := by simp [isErrorStatus]
    simp [requestLogPolicyDo, hslow, hsc]

/-- Witness for claim C7: the theorem applied at threshold 0, -1 and 7. -/
theorem threshold_configuration_witness :
    newRequestLogPolicyFactoryThreshold 0 = 3 * timeSecond ∧
    newRequestLogPolicyFactoryThreshold (-1) = -1 ∧
    (requestLogPolicyDo (-1) (fun _ => true) freshPolicyState 0 ""
      ⟨0, 200, none, 5⟩).severity ≠ .warning ∧
    (requestLogPolicyDo 7 (fun _ => true) freshPolicyState 0 ""
      ⟨0, 200, none, 7⟩).severity = .info := by
  obtain ⟨h0, hNZ, hNeg, hPos⟩ := threshold_configuration_behavior
  exact ⟨h0, hNZ (-1) (by norm_num),
    hNeg (-1) (by norm_num) (fun _ => true) freshPolicyState 0 "" ⟨0, 200, none, 5⟩,
    hPos 7 (by norm_num) (fun _ => true) freshPolicyState 0 "" 0⟩

/-- Claim C8: `Do` returns to its caller exactly the response and error it
received from the next pipeline stage, the live request handed to the next
stage is the unmodified original, and `prepareRequestForLogging` leaves the
live request untouched (redaction lands only on the logging-bound copy). -/
theorem do_propagates_outcome_and_preserves_live_request (th : Int)
    (sl : LogSeverity → Bool) (s : PolicyState) (now : Int) (q : String)
    (o : TryOutcome) :
    (requestLogPolicyDo th sl s now q o).response = o.response ∧
    (requestLogPolicyDo th sl s now q o).err = o.err ∧
    (requestLogPolicyDo th sl s now q o).requestToNext = q ∧
    ∀ req : GoRequest, (prepareRequestForLogging req).1 = req := by
  refine ⟨rfl, rfl, rfl, fun req => ?_⟩
  simp only [prepareRequestForLogging]
  split <;> rfl

/-- Claim C9: `stack()` runs only when the attempt classified as Error and
the diagnostic message was actually rendered; it never runs for Info- or
Warning-classified attempts; and when neither the filtered channel (node
predicate rejects the severity) nor the forced channel (classification's
force flag is false) would consume the record, neither rendering nor stack
capture happens. -/
theorem stack_capture_only_for_rendered_errors (th : Int)
    (sl : LogSeverity → Bool) (s : PolicyState) (now : Int) (q : String)
    (o : TryOutcome) :
    ((requestLogPolicyDo th sl s now q o).stackCaptured = true →
      (requestLogPolicyDo th sl s now q o).severity = .error ∧
      (requestLogPolicyDo th sl s now q o).msgRendered = true) ∧
    ((requestLogPolicyDo th sl s now q o).severity ≠ .error →
      (requestLogPolicyDo th sl s now q o).stackCaptured = false) ∧
    (sl (requestLogPolicyDo th sl s now q o).severity = false →
      (classifySpec o.err.isSome o.statusCode o.tryDuration th).2 = false →
      (requestLogPolicyDo th sl s now q o).msgRendered = false ∧
      (requestLogPolicyDo th sl s now q o).stackCaptured = false) := by
  obtain ⟨resp, sc, err, d⟩ := o
  cases err <;>
    simp only [requestLogPolicyDo, Option.isSome, classifySpec] <;>
    split_ifs <;>
    simp_all [msgCapturesStack, msgSetsForce]

/-- Witness for claim C9 at a concrete Warning-classified attempt with a
filter that rejects everything. -/
theorem stack_capture_witness :
    (requestLogPolicyDo 1 (fun _ => false) freshPolicyState 0 ""
      ⟨0, 200, none, 0⟩).msgRendered = false ∧
    (requestLogPolicyDo 1 (fun _ => false) freshPolicyState 0 ""
      ⟨0, 200, none, 0⟩).stackCaptured = false := by
  exact (stack_capture_only_for_rendered_errors 1 (fun _ => false)
    freshPolicyState 0 "" ⟨0, 200, none, 0⟩).2.2 (by decide) (by decide)

/-- Claim C10: on a query whose `sig` parameter is detected but which does
not parse cleanly (`a=%zz` has an invalid percent-escape), `ParseQuery`
reports an error, `redactSigQueryParam` ignores it, and the malformed pair
is silently dropped from the re-encoded output. -/
theorem malformed_components_silently_dropped :
    (parseQuery (strToLower "a=%zz&sig=secret").data).2 = true ∧
    redactSigQueryParam "a=%zz&sig=secret" = (true, "sig=REDACTED") ∧
    containsSub "a=%zz".data "sig=REDACTED".data = false := by
  decide

end AzblobRequestLog
